import Mathlib

/-!
Shallow embedding of the environment/state subsystem of the VRL compiler
(`src/lib/vrl/compiler/src/state.rs`) and the compile orchestration entry
points (`src/lib/vrl/vrl/src/lib.rs`), together with proofs of the
testable properties of the specification.

Rust `HashMap`s are embedded as functions `key → Option value` (extensional
maps: `insert` overwrites, `get` looks up), `BTreeSet` as a duplicate-free
list with membership-checked insertion, and `&mut self` methods as functions
returning the updated structure.
-/

/-- An identifier (`parser::ast::Ident`): an opaque name token with
structural equality, embedded as a string. -/
def Ident := String

instance : DecidableEq Ident := fun a b => String.decEq a b

/-- Modelled from the spec: a runtime concrete value (`value::Value`, an
external collaborator crate). The state core stores and returns these
opaquely; a small inductive with structural equality suffices. -/
inductive Value where
  | null : Value
  | boolean : Bool → Value
  | integer : Int → Value
  | bytes : String → Value
deriving DecidableEq

/-- Modelled from the spec: the Structural Type Descriptor (`value::Kind`,
an external collaborator crate): "a lattice value representing the set of
possible shapes a dynamic value may hold", supporting a join/union and
equality. Embedded as a set of primitive shape flags. -/
structure Kind where
  bytes : Bool
  integer : Bool
  float : Bool
  boolean : Bool
  object : Bool
  array : Bool
  null : Bool
deriving DecidableEq

/-- Modelled from the spec: the join (union) of two type descriptors. -/
def Kind.union (a b : Kind) : Kind where
  bytes := a.bytes || b.bytes
  integer := a.integer || b.integer
  float := a.float || b.float
  boolean := a.boolean || b.boolean
  object := a.object || b.object
  array := a.array || b.array
  null := a.null || b.null

/-- `a` describes a subset of the shapes described by `b`. -/
def Kind.subset (a b : Kind) : Bool :=
  (!a.bytes || b.bytes) && (!a.integer || b.integer) && (!a.float || b.float)
    && (!a.boolean || b.boolean) && (!a.object || b.object)
    && (!a.array || b.array) && (!a.null || b.null)

/-- "An object with arbitrary unknown shape": `Kind::object(Collection::any())`,
used to seed the default external environment. -/
def Kind.objectAny : Kind where
  bytes := false
  integer := false
  float := false
  boolean := false
  object := true
  array := false
  null := false

/-- Modelled from the spec: `TypeDef` (crate `type_def`, not under `src/`):
"wraps a Structural Type Descriptor plus any compiler-tracked metadata
needed to merge two instances". -/
structure TypeDef where
  fallible : Bool
  kind : Kind
deriving DecidableEq

/-- Modelled from the spec: the merge of two type definitions, "itself a
structural join". -/
def TypeDef.merge (a b : TypeDef) : TypeDef where
  fallible := a.fallible || b.fallible
  kind := a.kind.union b.kind

/-- `Details`: a type definition paired with an optional compile-time-known
constant value (`type_def::Details`). -/
structure Details where
  type_def : TypeDef
  value : Option Value
deriving DecidableEq

/-- Modelled from the spec: `Details::merge` (crate `type_def`, not under
`src/`): the type definitions are joined; the constant value "is not
required to survive merges" and is kept only when both sides agree. -/
def Details.merge (a b : Details) : Details where
  type_def := a.type_def.merge b.type_def
  value := if a.value = b.value then a.value else none

/-- `LocalEnv`: the per-scope variable binding table, a `HashMap<Ident,
Details>` embedded as an extensional finite map. -/
structure LocalEnv where
  bindings : Ident → Option Details

/-- `LocalEnv::variable`: look a binding up. -/
def LocalEnv.lookupVariable (env : LocalEnv) (ident : Ident) : Option Details :=
  env.bindings ident

/-- `LocalEnv::insert_variable`: bind (later inserts overwrite). -/
def LocalEnv.insert_variable (env : LocalEnv) (ident : Ident) (details : Details) : LocalEnv :=
  ⟨fun i => if i = ident then some details else env.bindings i⟩

/-- `LocalEnv::remove_variable` (the updated environment). -/
def LocalEnv.remove_variable (env : LocalEnv) (ident : Ident) : LocalEnv :=
  ⟨fun i => if i = ident then none else env.bindings i⟩

/-- `LocalEnv::default()`: no bindings. -/
def LocalEnv.default : LocalEnv := ⟨fun _ => none⟩

/-- `LocalEnv::apply_child_scope`: every binding existing in *both* self and
child is overwritten with child's; bindings only in child are not promoted;
bindings only in self are untouched. The Rust loop over `child.bindings`
touches each identifier independently, so it is this extensional map. -/
def LocalEnv.apply_child_scope (self child : LocalEnv) : LocalEnv :=
  ⟨fun i =>
    match self.bindings i with
    | some self_details =>
      match child.bindings i with
      | some child_details => some child_details
      | none => some self_details
    | none => none⟩

/-- `LocalEnv::merge`: for every identifier present in both, self's binding
becomes `self_details.merge(other_details)`; identifiers only in `other`
are not added; identifiers only in `self` are left in place. -/
def LocalEnv.merge (self other : LocalEnv) : LocalEnv :=
  ⟨fun i =>
    match self.bindings i with
    | some self_details =>
      match other.bindings i with
      | some other_details => some (self_details.merge other_details)
      | none => some self_details
    | none => none⟩

/-- Modelled from the spec: a value path (`lookup::LookupBuf`, repository
code not under `src/`): "a value-path abstraction supporting
prefix/ancestor containment queries (`can_start_with`)", embedded as its
chain of segments. -/
def LookupBuf := List String

instance : DecidableEq LookupBuf := fun a b => List.hasDecEq a b

/-- `LookupBuf::root()`: the empty path. -/
def LookupBuf.root : LookupBuf := []

/-- Modelled from the spec: `self.can_start_with(other)` holds when `self`
starts with `other`, i.e. `other`, read as a segment chain, is an
ancestor-or-equal of `self`. -/
def LookupBuf.can_start_with : LookupBuf → LookupBuf → Bool
  | _, [] => true
  | [], _ :: _ => false
  | a :: as, b :: bs => a = b && LookupBuf.can_start_with as bs

/-- `PathRoot`: which record a read-only rule applies to. -/
inductive PathRoot where
  | Event : PathRoot
  | Metadata : PathRoot
deriving DecidableEq

/-- `ReadOnlyPath`: a declared read-only rule. -/
structure ReadOnlyPath where
  path : LookupBuf
  recursive : Bool
  root : PathRoot
deriving DecidableEq

/-- `BTreeSet<ReadOnlyPath>::insert`, on the duplicate-free list embedding
of the set: inserting a member leaves the set unchanged. -/
def insertRule (rules : List ReadOnlyPath) (rop : ReadOnlyPath) : List ReadOnlyPath :=
  if rop ∈ rules then rules else rules ++ [rop]

/-- A type identity (`std::any::TypeId`), keying the heterogeneous context
store; distinct numbers stand for distinct Rust types. -/
abbrev TypeId := Nat

/-- Modelled from the spec: `anymap::AnyMap`, the "type-keyed heterogeneous
store": at most one stored instance per distinct type, retrieved at the
stored type. `Interp` interprets each type identity as the Lean type of
the values stored under it. -/
def AnyMap (Interp : TypeId → Type) : Type := (k : TypeId) → Option (Interp k)

/-- `AnyMap::new()`: the empty store. -/
def AnyMap.new (Interp : TypeId → Type) : AnyMap Interp := fun _ => none

/-- `AnyMap::insert::<T>`: store a `T`-typed instance, replacing any prior
instance of the same type. -/
def AnyMap.insert {Interp : TypeId → Type} (m : AnyMap Interp) (k : TypeId)
    (v : Interp k) : AnyMap Interp :=
  fun j => if h : j = k then some (h.symm ▸ v) else m j

/-- `AnyMap::get::<T>`: retrieve the stored `T`-typed instance, if any. -/
def AnyMap.get {Interp : TypeId → Type} (m : AnyMap Interp) (k : TypeId) :
    Option (Interp k) :=
  m k

/-- `ExternalEnv`: the program-wide environment. -/
structure ExternalEnv (Interp : TypeId → Type) where
  target : Details
  metadata : Kind
  read_only_paths : List ReadOnlyPath
  custom : AnyMap Interp

/-- `ExternalEnv::new_with_kind`. -/
def ExternalEnv.new_with_kind (Interp : TypeId → Type) (target metadata : Kind) :
    ExternalEnv Interp where
  target := { type_def := { fallible := false, kind := target }, value := none }
  metadata := metadata
  custom := AnyMap.new Interp
  read_only_paths := []

/-- `ExternalEnv::default()`: both roots start as objects of unknown shape. -/
def ExternalEnv.default (Interp : TypeId → Type) : ExternalEnv Interp :=
  ExternalEnv.new_with_kind Interp Kind.objectAny Kind.objectAny

/-- `ExternalEnv::is_read_only_path`: scan every stored rule with matching
root; a rule applies when its path reaches down to or through the queried
path, or (recursive) the queried path descends from the rule's path, or
(non-recursive) the paths are equal. -/
def ExternalEnv.is_read_only_path {Interp : TypeId → Type} (env : ExternalEnv Interp)
    (path : LookupBuf) (root : PathRoot) : Bool :=
  env.read_only_paths.any fun read_only_path =>
    decide (read_only_path.root = root)
      && (read_only_path.path.can_start_with path
        || (if read_only_path.recursive then path.can_start_with read_only_path.path
            else decide (path = read_only_path.path)))

/-- `ExternalEnv::is_read_only_event_path`. -/
def ExternalEnv.is_read_only_event_path {Interp : TypeId → Type}
    (env : ExternalEnv Interp) (path : LookupBuf) : Bool :=
  env.is_read_only_path path PathRoot.Event

/-- `ExternalEnv::is_read_only_metadata_path`. -/
def ExternalEnv.is_read_only_metadata_path {Interp : TypeId → Type}
    (env : ExternalEnv Interp) (path : LookupBuf) : Bool :=
  env.is_read_only_path path PathRoot.Metadata

/-- `ExternalEnv::set_read_only_path`. -/
def ExternalEnv.set_read_only_path {Interp : TypeId → Type} (env : ExternalEnv Interp)
    (path : LookupBuf) (recursive : Bool) (root : PathRoot) : ExternalEnv Interp :=
  { env with read_only_paths :=
      insertRule env.read_only_paths { path := path, recursive := recursive, root := root } }

/-- `ExternalEnv::set_read_only_event_path`. -/
def ExternalEnv.set_read_only_event_path {Interp : TypeId → Type}
    (env : ExternalEnv Interp) (path : LookupBuf) (recursive : Bool) : ExternalEnv Interp :=
  env.set_read_only_path path recursive PathRoot.Event

/-- `ExternalEnv::set_read_only_metadata_path`. -/
def ExternalEnv.set_read_only_metadata_path {Interp : TypeId → Type}
    (env : ExternalEnv Interp) (path : LookupBuf) (recursive : Bool) : ExternalEnv Interp :=
  env.set_read_only_path path recursive PathRoot.Metadata

/-- `ExternalEnv::update_target`. -/
def ExternalEnv.update_target {Interp : TypeId → Type} (env : ExternalEnv Interp)
    (details : Details) : ExternalEnv Interp :=
  { env with target := details }

/-- `ExternalEnv::update_metadata`. -/
def ExternalEnv.update_metadata {Interp : TypeId → Type} (env : ExternalEnv Interp)
    (kind : Kind) : ExternalEnv Interp :=
  { env with metadata := kind }

/-- `ExternalEnv::set_external_context::<T>`. -/
def ExternalEnv.set_external_context {Interp : TypeId → Type} (env : ExternalEnv Interp)
    (k : TypeId) (data : Interp k) : ExternalEnv Interp :=
  { env with custom := env.custom.insert k data }

/-- `ExternalEnv::get_external_context::<T>`. -/
def ExternalEnv.get_external_context {Interp : TypeId → Type} (env : ExternalEnv Interp)
    (k : TypeId) : Option (Interp k) :=
  env.custom.get k

/-- `ExternalEnv::read_only`: mark the entire event root and the entire
metadata root recursively read-only. -/
def ExternalEnv.read_only {Interp : TypeId → Type} (env : ExternalEnv Interp) :
    ExternalEnv Interp :=
  (env.set_read_only_event_path LookupBuf.root true).set_read_only_metadata_path
    LookupBuf.root true

/-- `Runtime`: the execution-time `HashMap<Ident, Value>` variable store
(field `variables` in the source; `variables` is reserved in Lean). -/
structure Runtime where
  vars : Ident → Option Value

/-- `Runtime::variable`. -/
def Runtime.lookupVariable (rt : Runtime) (ident : Ident) : Option Value :=
  rt.vars ident

/-- `Runtime::insert_variable`. -/
def Runtime.insert_variable (rt : Runtime) (ident : Ident) (value : Value) : Runtime :=
  ⟨fun i => if i = ident then some value else rt.vars i⟩

/-- `Runtime::remove_variable`. -/
def Runtime.remove_variable (rt : Runtime) (ident : Ident) : Runtime :=
  ⟨fun i => if i = ident then none else rt.vars i⟩

/-- `Runtime::swap_variable`: set the value, returning whatever was
previously bound (the occupied branch of the `HashMap` entry API), or
nothing if the identifier was vacant. -/
def Runtime.swap_variable (rt : Runtime) (ident : Ident) (value : Value) :
    Option Value × Runtime :=
  match rt.vars ident with
  | some old => (some old, rt.insert_variable ident value)
  | none => (none, rt.insert_variable ident value)

/-- `diagnostic::DiagnosticList`: the list of diagnostics returned on
failure; `DiagnosticList::from(vec![err])` wraps a single parse error. -/
def DiagnosticList (E : Type) : Type := List E

/-- `DiagnosticList::from` on a vector of boxed diagnostics. -/
def DiagnosticList.ofList {E : Type} (errors : List E) : DiagnosticList E := errors

/-- `vrl::compile_with_state`: parse the source first (parsing is a pure
function of the source text alone); a parse failure short-circuits into a
diagnostics list, returning the supplied external environment untouched and
never consuming the local environment; only on a successful parse does
`Compiler::compile` run against `external` and `local`. The parser
(`parser::parse`) and compiler (`compiler::Compiler::compile`) are
repository code outside `src/` and are taken as opaque function
parameters; `&mut external` is embedded by returning the updated
environment alongside the result. -/
def compile_with_state {Interp : TypeId → Type} {E AST Program Func : Type}
    (parse : String → Except E AST)
    (compilerCompile : List Func → AST → ExternalEnv Interp → LocalEnv →
      Except (DiagnosticList E) Program × ExternalEnv Interp)
    (source : String) (fns : List Func) (external : ExternalEnv Interp)
    (localEnv : LocalEnv) : Except (DiagnosticList E) Program × ExternalEnv Interp :=
  match parse source with
  | Except.error err => (Except.error (DiagnosticList.ofList [err]), external)
  | Except.ok ast => compilerCompile fns ast external localEnv

/-- `vrl::compile_with_external`: `compile_with_state` with a default
local environment. -/
def compile_with_external {Interp : TypeId → Type} {E AST Program Func : Type}
    (parse : String → Except E AST)
    (compilerCompile : List Func → AST → ExternalEnv Interp → LocalEnv →
      Except (DiagnosticList E) Program × ExternalEnv Interp)
    (source : String) (fns : List Func) (external : ExternalEnv Interp) :
    Except (DiagnosticList E) Program × ExternalEnv Interp :=
  compile_with_state parse compilerCompile source fns external LocalEnv.default

/-- `vrl::compile`: `compile_with_external` against a fresh default
external environment. -/
def compile {Interp : TypeId → Type} {E AST Program Func : Type}
    (parse : String → Except E AST)
    (compilerCompile : List Func → AST → ExternalEnv Interp → LocalEnv →
      Except (DiagnosticList E) Program × ExternalEnv Interp)
    (source : String) (fns : List Func) :
    Except (DiagnosticList E) Program × ExternalEnv Interp :=
  compile_with_external parse compilerCompile source fns (ExternalEnv.default Interp)

/-- Concrete shape: bytes (string). -/
def kindBytes : Kind := ⟨true, false, false, false, false, false, false⟩

/-- Concrete shape: integer. -/
def kindInteger : Kind := ⟨false, true, false, false, false, false, false⟩

/-- Concrete detail: an infallible string. -/
def dBytes : Details := ⟨⟨false, kindBytes⟩, none⟩

/-- Concrete detail: an infallible integer. -/
def dInteger : Details := ⟨⟨false, kindInteger⟩, some (Value.integer 1)⟩

/-- Concrete detail: an infallible boolean constant. -/
def dBoolean : Details := ⟨⟨false, ⟨false, false, false, true, false, false, false⟩⟩, some (Value.boolean true)⟩

/-- Concrete local environment binding `x` and `y`. -/
def envA0 : LocalEnv :=
  (LocalEnv.default.insert_variable "x" dBytes).insert_variable "y" dBoolean

/-- Concrete local environment binding `x` only. -/
def envB0 : LocalEnv := LocalEnv.default.insert_variable "x" dInteger

/-- Concrete parent scope binding `p` and `x`. -/
def envP0 : LocalEnv :=
  (LocalEnv.default.insert_variable "p" dBytes).insert_variable "x" dBytes

/-- Concrete child scope overwriting `x` and introducing `y`. -/
def envC0 : LocalEnv :=
  (LocalEnv.default.insert_variable "x" dInteger).insert_variable "y" dBoolean

/-- A trivial interpretation of type identities, for concrete environments
whose context store is unused. -/
def InterpU : TypeId → Type := fun _ => Unit

/-- Concrete external environment with a single non-recursive read-only
rule on the event path `a.b`. -/
def envRO : ExternalEnv InterpU :=
  (ExternalEnv.default InterpU).set_read_only_event_path ["a", "b"] false

/-- Concrete external environment with a single recursive read-only rule
on the event path `a.b`. -/
def envROrec : ExternalEnv InterpU :=
  (ExternalEnv.default InterpU).set_read_only_event_path ["a", "b"] true

/-- An interpretation of type identities storing a number under every
identity, used by the concrete context-store witness. -/
abbrev InterpN : TypeId → Type := fun _ => Nat

/-- A concrete runtime with no variables bound. -/
def rt0 : Runtime := ⟨fun _ => none⟩

theorem can_start_with_nil (p : LookupBuf) : p.can_start_with [] = true := by
  cases p <;> rfl

theorem can_start_with_refl (p : LookupBuf) : p.can_start_with p = true := by
  induction p with
  | nil => rfl
  | cons a as ih => simp [LookupBuf.can_start_with, ih]

theorem can_start_with_append (p r : List String) :
    LookupBuf.can_start_with (p ++ r) p = true := by
  induction p with
  | nil => exact can_start_with_nil r
  | cons a as ih => simp [List.cons_append, LookupBuf.can_start_with, ih]

theorem can_start_with_self_append (p r : List String) (h : r ≠ []) :
    LookupBuf.can_start_with p (p ++ r) = false := by
  induction p with
  | nil =>
    cases r with
    | nil => exact absurd rfl h
    | cons b bs => rfl
  | cons a as ih => simp [List.cons_append, LookupBuf.can_start_with, ih]

theorem self_append_ne (p r : List String) (h : r ≠ []) : p ++ r ≠ p := by
  intro he
  have hlen : (p ++ r).length = p.length := congrArg List.length he
  rw [List.length_append] at hlen
  have : r.length = 0 := by omega
  exact h (List.length_eq_zero.mp this)

theorem mem_insertRule_self (rules : List ReadOnlyPath) (rop : ReadOnlyPath) :
    rop ∈ insertRule rules rop := by
  unfold insertRule
  split
  · assumption
  · exact List.mem_append_right _ (List.mem_singleton.mpr rfl)

theorem mem_insertRule_of_mem (rules : List ReadOnlyPath) (a rop : ReadOnlyPath)
    (h : rop ∈ rules) : rop ∈ insertRule rules a := by
  unfold insertRule
  split
  · exact h
  · exact List.mem_append_left _ h

theorem insertRule_of_mem (rules : List ReadOnlyPath) (rop : ReadOnlyPath)
    (h : rop ∈ rules) : insertRule rules rop = rules := if_pos h

theorem insertRule_idem (rules : List ReadOnlyPath) (rop : ReadOnlyPath) :
    insertRule (insertRule rules rop) rop = insertRule rules rop :=
  insertRule_of_mem _ _ (mem_insertRule_self rules rop)

theorem is_read_only_of_mem {Interp : TypeId → Type} (env : ExternalEnv Interp)
    (path : LookupBuf) (root : PathRoot) (rop : ReadOnlyPath)
    (hmem : rop ∈ env.read_only_paths) (hroot : rop.root = root)
    (hhit : (rop.path.can_start_with path
      || (if rop.recursive then path.can_start_with rop.path
          else decide (path = rop.path))) = true) :
    env.is_read_only_path path root = true := by
  unfold ExternalEnv.is_read_only_path
  refine List.any_eq_true.mpr ⟨rop, hmem, ?_⟩
  rw [Bool.and_eq_true]
  exact ⟨by simp [hroot], hhit⟩

theorem bool_not_or_or (x y : Bool) : (!x || (x || y)) = true := by
  cases x <;> simp

theorem bool_not_or_or_right (x y : Bool) : (!x || (y || x)) = true := by
  cases x <;> simp

theorem kind_subset_union_left (a b : Kind) : a.subset (a.union b) = true := by
  simp [Kind.subset, Kind.union, bool_not_or_or]

theorem kind_subset_union_right (a b : Kind) : b.subset (a.union b) = true := by
  simp [Kind.subset, Kind.union, bool_not_or_or_right]

theorem anymap_get_insert_same {Interp : TypeId → Type} (m : AnyMap Interp)
    (k : TypeId) (v : Interp k) : (m.insert k v).get k = some v :=
  dif_pos rfl

theorem anymap_get_insert_ne {Interp : TypeId → Type} (m : AnyMap Interp)
    (k j : TypeId) (v : Interp k) (h : j ≠ k) : (m.insert k v).get j = m j :=
  dif_neg h

/-- C1 fails as stated: in `envA0` the identifier `y` is bound while `envB0`
does not bind it, yet `envA0.merge envB0` still binds `y` — an identifier
bound only in the receiver is *not* absent from the result. -/
theorem C1_counterexample :
    envA0.lookupVariable "y" = some dBoolean
    ∧ envB0.lookupVariable "y" = none
    ∧ ¬((envA0.merge envB0).lookupVariable "y" = none) := by
  refine ⟨rfl, rfl, ?_⟩
  show ¬(((envA0.merge envB0).lookupVariable "y" : Option Details) = none)
  decide

/-- C1 (amended): for `LocalEnv` A, B sharing identifier `x` with details
`T1`, `T2`, `A.merge B` binds `x` to the structural join `T1.merge T2`,
whose kind is a superset of both `T1`'s and `T2`'s kinds; identifiers bound
only in B are absent from the result, while identifiers bound only in A
keep their original binding. -/
theorem C1_merge_join (A B : LocalEnv) (x : Ident) (T1 T2 : Details)
    (h1 : A.lookupVariable x = some T1) (h2 : B.lookupVariable x = some T2) :
    (A.merge B).lookupVariable x = some (T1.merge T2)
    ∧ T1.type_def.kind.subset (T1.merge T2).type_def.kind = true
    ∧ T2.type_def.kind.subset (T1.merge T2).type_def.kind = true
    ∧ (∀ y, A.lookupVariable y = none → (A.merge B).lookupVariable y = none)
    ∧ (∀ y, B.lookupVariable y = none →
        (A.merge B).lookupVariable y = A.lookupVariable y) := by
  have h1' : A.bindings x = some T1 := h1
  have h2' : B.bindings x = some T2 := h2
  refine ⟨?_, ?_, ?_, ?_, ?_⟩
  · simp [LocalEnv.merge, LocalEnv.lookupVariable, h1', h2']
  · exact kind_subset_union_left T1.type_def.kind T2.type_def.kind
  · exact kind_subset_union_right T1.type_def.kind T2.type_def.kind
  · intro y hy
    have hy' : A.bindings y = none := hy
    simp [LocalEnv.merge, LocalEnv.lookupVariable, hy']
  · intro y hy
    have hy' : B.bindings y = none := hy
    cases hA : A.bindings y <;>
      simp [LocalEnv.merge, LocalEnv.lookupVariable, hA, hy']

/-- C1 witness: the amended statement applied to the concrete environments
`envA0` (binding `x`, `y`) and `envB0` (binding `x`). -/
theorem C1_witness :
    (envA0.merge envB0).lookupVariable "x" = some (dBytes.merge dInteger)
    ∧ (envA0.merge envB0).lookupVariable "z" = none := by
  have h := C1_merge_join envA0 envB0 "x" dBytes dInteger (by decide) (by decide)
  exact ⟨h.1, h.2.2.2.1 "z" (by decide)⟩

/-- C2: a binding present in the receiver A but absent from the argument B
survives `A.merge B` unchanged. -/
theorem C2_merge_keeps_self_only (A B : LocalEnv) (x : Ident) (d : Details)
    (hA : A.lookupVariable x = some d) (hB : B.lookupVariable x = none) :
    (A.merge B).lookupVariable x = some d := by
  have hA' : A.bindings x = some d := hA
  have hB' : B.bindings x = none := hB
  simp [LocalEnv.merge, LocalEnv.lookupVariable, hA', hB']

/-- C2 witness: `y` is bound only in `envA0` and survives the merge with
its original details. -/
theorem C2_witness : (envA0.merge envB0).lookupVariable "y" = some dBoolean :=
  C2_merge_keeps_self_only envA0 envB0 "y" dBoolean (by decide) (by decide)

/-- C5: `P.apply_child_scope C` rebinds an identifier shared by parent and
child to the child's details, does not contain identifiers bound only in
the child, and leaves parent bindings absent from the child unchanged. -/
theorem C5_apply_child_scope (P C : LocalEnv) (x y : Ident) (T2 : Details)
    (hx : (P.lookupVariable x).isSome = true) (hcx : C.lookupVariable x = some T2)
    (hy : P.lookupVariable y = none) (_hcy : (C.lookupVariable y).isSome = true) :
    (P.apply_child_scope C).lookupVariable x = some T2
    ∧ (P.apply_child_scope C).lookupVariable y = none
    ∧ (∀ z, C.lookupVariable z = none →
        (P.apply_child_scope C).lookupVariable z = P.lookupVariable z) := by
  obtain ⟨T1, hT1⟩ := Option.isSome_iff_exists.mp hx
  have hT1' : P.bindings x = some T1 := hT1
  have hcx' : C.bindings x = some T2 := hcx
  have hy' : P.bindings y = none := hy
  refine ⟨?_, ?_, ?_⟩
  · simp [LocalEnv.apply_child_scope, LocalEnv.lookupVariable, hT1', hcx']
  · simp [LocalEnv.apply_child_scope, LocalEnv.lookupVariable, hy']
  · intro z hz
    have hz' : C.bindings z = none := hz
    cases hP : P.bindings z <;>
      simp [LocalEnv.apply_child_scope, LocalEnv.lookupVariable, hP, hz']

/-- C5 witness: the concrete parent `envP0` (binding `p`, `x`) and child
`envC0` (overwriting `x`, introducing `y`). -/
theorem C5_witness :
    (envP0.apply_child_scope envC0).lookupVariable "x" = some dInteger
    ∧ (envP0.apply_child_scope envC0).lookupVariable "y" = none
    ∧ (envP0.apply_child_scope envC0).lookupVariable "p" = envP0.lookupVariable "p" := by
  have h := C5_apply_child_scope envP0 envC0 "x" "y" dInteger
    (by decide) (by decide) (by decide) (by decide)
  exact ⟨h.1, h.2.1, h.2.2 "p" (by decide)⟩

/-- C3: with a single non-recursive Event rule on `p` (and no other Event
rules), the exact path `p` is read-only, every strict descendant of `p` is
not read-only, and every strict ancestor of `p` is read-only; with a
recursive Event rule on `p` present, every descendant of `p` is read-only. -/
theorem C3_single_rule_containment {Interp : TypeId → Type}
    (env envRec : ExternalEnv Interp) (p : List String)
    (hmem : (⟨p, false, PathRoot.Event⟩ : ReadOnlyPath) ∈ env.read_only_paths)
    (honly : ∀ rop ∈ env.read_only_paths, rop.root = PathRoot.Event →
      rop = (⟨p, false, PathRoot.Event⟩ : ReadOnlyPath))
    (hmemRec : (⟨p, true, PathRoot.Event⟩ : ReadOnlyPath) ∈ envRec.read_only_paths) :
    env.is_read_only_event_path p = true
    ∧ (∀ r : List String, r ≠ [] → env.is_read_only_event_path (p ++ r) = false)
    ∧ (∀ q r : List String, r ≠ [] → p = q ++ r →
        env.is_read_only_event_path q = true)
    ∧ (∀ r : List String, envRec.is_read_only_event_path (p ++ r) = true) := by
  refine ⟨?_, ?_, ?_, ?_⟩
  · exact is_read_only_of_mem env p PathRoot.Event _ hmem rfl
      (by simp [can_start_with_refl p])
  · intro r hr
    unfold ExternalEnv.is_read_only_event_path ExternalEnv.is_read_only_path
    rw [List.any_eq_false]
    intro rop hrop
    by_cases hr0 : rop.root = PathRoot.Event
    · rw [honly rop hrop hr0]
      simp [can_start_with_self_append p r hr, self_append_ne p r hr]
    · simp [hr0]
  · intro q r hr hpq
    refine is_read_only_of_mem env q PathRoot.Event _ hmem rfl ?_
    rw [hpq]
    simp [can_start_with_append q r]
  · intro r
    refine is_read_only_of_mem envRec (p ++ r) PathRoot.Event _ hmemRec rfl ?_
    simp [can_start_with_append p r]

/-- C3 witness: the concrete environments with the single rule on event
path `a.b`, queried at `a.b`, `a.b.c` and `a`. -/
theorem C3_witness :
    envRO.is_read_only_event_path ["a", "b"] = true
    ∧ envRO.is_read_only_event_path ["a", "b", "c"] = false
    ∧ envRO.is_read_only_event_path ["a"] = true
    ∧ envROrec.is_read_only_event_path ["a", "b", "c"] = true := by
  have h := C3_single_rule_containment envRO envROrec ["a", "b"]
    (by decide) (by decide) (by decide)
  exact ⟨h.1, h.2.1 ["c"] (by decide), h.2.2.1 ["a"] ["b"] (by decide) (by decide),
    h.2.2.2 ["c"]⟩

/-- C4: after `ExternalEnv::read_only()` — which inserts a recursive rule
on the empty root path for each root — every path, the root included, is
reported read-only for both the event and the metadata root. -/
theorem C4_read_only_everything {Interp : TypeId → Type} (env : ExternalEnv Interp)
    (q : LookupBuf) :
    env.read_only.is_read_only_event_path q = true
    ∧ env.read_only.is_read_only_metadata_path q = true := by
  have hrules : env.read_only.read_only_paths
      = insertRule (insertRule env.read_only_paths
          ⟨LookupBuf.root, true, PathRoot.Event⟩)
        ⟨LookupBuf.root, true, PathRoot.Metadata⟩ := rfl
  constructor
  · refine is_read_only_of_mem env.read_only q PathRoot.Event
      ⟨LookupBuf.root, true, PathRoot.Event⟩ ?_ rfl ?_
    · rw [hrules]
      exact mem_insertRule_of_mem _ _ _ (mem_insertRule_self _ _)
    · simp [LookupBuf.root, can_start_with_nil]
  · refine is_read_only_of_mem env.read_only q PathRoot.Metadata
      ⟨LookupBuf.root, true, PathRoot.Metadata⟩ ?_ rfl ?_
    · rw [hrules]
      exact mem_insertRule_self _ _
    · simp [LookupBuf.root, can_start_with_nil]

/-- C6: when parsing fails, `compile_with_state` returns the diagnostics
list wrapping the parse error and hands back the supplied external
environment unchanged; the result is independent of the supplied local
environment, and `compile_with_external` behaves identically. Compilation
(the only consumer of the environments) runs only on a successful parse. -/
theorem C6_parse_failure_short_circuits {Interp : TypeId → Type}
    {E AST Program Func : Type} (parse : String → Except E AST)
    (compilerCompile : List Func → AST → ExternalEnv Interp → LocalEnv →
      Except (DiagnosticList E) Program × ExternalEnv Interp)
    (source : String) (fns : List Func) (external : ExternalEnv Interp)
    (l1 l2 : LocalEnv) (err : E) (h : parse source = Except.error err) :
    compile_with_state parse compilerCompile source fns external l1
      = (Except.error (DiagnosticList.ofList [err]), external)
    ∧ compile_with_state parse compilerCompile source fns external l1
      = compile_with_state parse compilerCompile source fns external l2
    ∧ compile_with_external parse compilerCompile source fns external
      = (Except.error (DiagnosticList.ofList [err]), external) := by
  refine ⟨?_, ?_, ?_⟩ <;> simp [compile_with_state, compile_with_external, h]

/-- C6 witness: a parser rejecting every source, a compiler that would
mutate nothing, a concrete environment. -/
theorem C6_witness :
    @compile_with_state InterpU Unit Unit Unit Unit (fun _ => Except.error ())
      (fun _ _ env _ => (Except.ok (), env)) "if" [] (ExternalEnv.default InterpU)
      LocalEnv.default
    = (Except.error (DiagnosticList.ofList [()]), ExternalEnv.default InterpU) :=
  (C6_parse_failure_short_circuits (fun _ => Except.error ())
    (fun _ _ env _ => (Except.ok (), env)) "if" [] (ExternalEnv.default InterpU)
    LocalEnv.default LocalEnv.default () rfl).1

/-- C7: storing `v1` then `v2` under the same type identity and reading it
back yields `v2`; reading a distinct type identity that was never inserted
yields nothing. -/
theorem C7_context_replacement {Interp : TypeId → Type} (env : ExternalEnv Interp)
    (k u : TypeId) (v1 v2 : Interp k) (hku : u ≠ k)
    (hu : env.get_external_context u = none) :
    ((env.set_external_context k v1).set_external_context k v2).get_external_context k
      = some v2
    ∧ ((env.set_external_context k v1).set_external_context k v2).get_external_context u
      = none := by
  constructor
  · exact anymap_get_insert_same _ k v2
  · show ((env.custom.insert k v1).insert k v2).get u = none
    rw [anymap_get_insert_ne _ k u v2 hku]
    show (env.custom.insert k v1).get u = none
    rw [anymap_get_insert_ne _ k u v1 hku]
    exact hu

/-- C7 witness: numbers stored under type identity 0, identity 1 never
inserted. -/
theorem C7_witness :
    (((ExternalEnv.default InterpN).set_external_context 0 7).set_external_context
        0 8).get_external_context 0 = some 8
    ∧ (((ExternalEnv.default InterpN).set_external_context 0 7).set_external_context
        0 8).get_external_context 1 = none :=
  C7_context_replacement (ExternalEnv.default InterpN) 0 1 7 8 (by decide) rfl

/-- C8: swapping a value into an unbound variable returns nothing and binds
it; a second swap returns the previously bound value and rebinds. -/
theorem C8_swap_variable_roundtrip (rt : Runtime) (id : Ident) (v v2 : Value)
    (h : rt.lookupVariable id = none) :
    (rt.swap_variable id v).1 = none
    ∧ (rt.swap_variable id v).2.lookupVariable id = some v
    ∧ ((rt.swap_variable id v).2.swap_variable id v2).1 = some v
    ∧ ((rt.swap_variable id v).2.swap_variable id v2).2.lookupVariable id = some v2 := by
  have h' : rt.vars id = none := h
  simp [Runtime.swap_variable, Runtime.lookupVariable, Runtime.insert_variable, h']

/-- C8 witness: the empty runtime, identifier `x`, two integer values. -/
theorem C8_witness :
    (rt0.swap_variable "x" (Value.integer 1)).1 = none
    ∧ (rt0.swap_variable "x" (Value.integer 1)).2.lookupVariable "x"
      = some (Value.integer 1)
    ∧ ((rt0.swap_variable "x" (Value.integer 1)).2.swap_variable "x"
        (Value.integer 2)).1 = some (Value.integer 1)
    ∧ ((rt0.swap_variable "x" (Value.integer 1)).2.swap_variable "x"
        (Value.integer 2)).2.lookupVariable "x" = some (Value.integer 2) :=
  C8_swap_variable_roundtrip rt0 "x" (Value.integer 1) (Value.integer 2) rfl

/-- C9: inserting the same read-only rule twice — through the generic
setter or either root-specific setter — yields the same environment as a
single insertion, hence the same read-only answers everywhere. -/
theorem C9_set_read_only_idempotent {Interp : TypeId → Type}
    (env : ExternalEnv Interp) (p : LookupBuf) (r : Bool) (root : PathRoot) :
    (env.set_read_only_path p r root).set_read_only_path p r root
      = env.set_read_only_path p r root
    ∧ (env.set_read_only_event_path p r).set_read_only_event_path p r
      = env.set_read_only_event_path p r
    ∧ (env.set_read_only_metadata_path p r).set_read_only_metadata_path p r
      = env.set_read_only_metadata_path p r
    ∧ ∀ (q : LookupBuf) (ρ : PathRoot),
        ((env.set_read_only_path p r root).set_read_only_path p r root).is_read_only_path q ρ
          = (env.set_read_only_path p r root).is_read_only_path q ρ := by
  have key : ∀ ρ : PathRoot,
      (env.set_read_only_path p r ρ).set_read_only_path p r ρ
        = env.set_read_only_path p r ρ := by
    intro ρ
    simp [ExternalEnv.set_read_only_path, insertRule_idem]
  exact ⟨key root, key PathRoot.Event, key PathRoot.Metadata,
    fun q ρ => by rw [key root]⟩

/-- C10: `update_metadata` replaces only the metadata field and
`update_target` replaces only the target field; each leaves the other
field, the read-only rule set and the custom context store unchanged. -/
theorem C10_update_frame {Interp : TypeId → Type} (env : ExternalEnv Interp)
    (kind : Kind) (details : Details) :
    (env.update_metadata kind).metadata = kind
    ∧ (env.update_metadata kind).target = env.target
    ∧ (env.update_metadata kind).read_only_paths = env.read_only_paths
    ∧ (env.update_metadata kind).custom = env.custom
    ∧ (env.update_target details).target = details
    ∧ (env.update_target details).metadata = env.metadata
    ∧ (env.update_target details).read_only_paths = env.read_only_paths
    ∧ (env.update_target details).custom = env.custom :=
  ⟨rfl, rfl, rfl, rfl, rfl, rfl, rfl, rfl⟩
